import Mathlib

/-
  Verification of src/rebind.c: an LD_PRELOAD shim that intercepts the
  bind(2) libc call and, when the environment variables REBIND_OLD_PORT and
  REBIND_NEW_PORT are suitably set and the requested port matches the old
  port, rebinds the socket to localhost on the new port instead.

  Shallow embedding conventions:
  * A socket address is modelled as the byte content of the object the
    caller passes (a `List Nat` of byte values), at the Linux struct
    layouts:
      - sockaddr
        offsets 0..1  : sa_family, 16-bit, host byte order (little endian)
      - sockaddr_in
        offsets 2..3  : sin_port, 16-bit, network byte order (big endian)
        offsets 4..7  : sin_addr, network byte order
      - sockaddr_in6
        offsets 2..3  : sin6_port (same offsets as sin_port)
        offsets 4..7  : sin6_flowinfo
        offsets 8..23 : sin6_addr (16 bytes)
        offsets 24..27: sin6_scope_id, host byte order
      - sockaddr_storage is 128 bytes.
    A byte read past the end of the modelled object yields 0.
  * A NULL address pointer is `none`.  With a NULL pointer the C code sets
    family to AF_UNSPEC, which is not AF_INET, and the else branch of the
    extraction then reads addr_in6->sin6_port through the NULL pointer:
    undefined behavior.  The model returns `none` (a fault) there.
  * The real bind implementation resolved through dlsym(RTLD_NEXT) is an
    abstract parameter `real : RealCall -> Int x Int` returning the pair
    (return value, errno state after the call).
  * C `long` is 64 bits (strtol clamps on overflow), C `int` is 32 bits
    (the assignment of the strtol result to an int wraps modulo 2^32).
  * The garbage stack content of the local `addr_tmp` buffer is the
    abstract parameter `junk`; the result returned by the ignored
    setsockopt(IPV6_V6ONLY) call is the abstract parameter threaded as
    `sres`.
-/

namespace Rebind

/-! ## Constants from the platform headers -/

def AF_UNSPEC : Nat := 0
def AF_INET : Nat := 2
def AF_INET6 : Nat := 10

/-- sizeof(struct sockaddr_storage) on Linux. -/
def SIZEOF_SOCKADDR_STORAGE : Nat := 128

/-! ## Byte-buffer primitives -/

/-- Read the byte at offset `i` of buffer `m` (reads past the end give 0). -/
def byteAt (m : List Nat) (i : Nat) : Nat := m.getD i 0

/-- Store the byte list `vs` into `m` starting at offset `i`
    (stores past the end of `m` are dropped, as `List.set` is). -/
def writeBytes : List Nat → Nat → List Nat → List Nat
  | m, _, [] => m
  | m, i, v :: vs => writeBytes (m.set i v) (i + 1) vs

/-- The `n` bytes of `m` starting at offset `off`. -/
def readBytes (m : List Nat) (off n : Nat) : List Nat :=
  (List.range n).map (fun k => byteAt m (off + k))

/-- ntohs of the 16-bit port field at offsets 2..3 (network byte order). -/
def readPort16 (m : List Nat) : Nat := 256 * byteAt m 2 + byteAt m 3

/-- htons(v): the two bytes, in network byte order, of the C int `v`
    converted to uint16_t. -/
def htons16 (v : Int) : List Nat :=
  let p : Nat := (v % 65536).toNat
  [p / 256, p % 256]

/-- sa_family, a 16-bit field in host byte order (little endian). -/
def getFamily (m : List Nat) : Nat := byteAt m 0 + 256 * byteAt m 1

/-- The static in6_addr constant from the source:  ::ffff:127.0.0.1 -/
def v4_loopback_mapped : List Nat :=
  [0, 0, 0, 0, 0, 0, 0, 0, 0, 0, 0xff, 0xff, 127, 0, 0, 1]

/-! ## strtol, base 10, as used on the two environment strings -/

/-- The characters the C "space" classification accepts in the C locale. -/
def isCSpace (c : Char) : Bool :=
  c == ' ' || c == '\t' || c == '\n' || c == '\x0b' || c == '\x0c' || c == '\r'

/-- Value of a digit string, most significant first. -/
def digitsToNat (ds : List Char) : Nat :=
  ds.foldl (fun a c => 10 * a + (c.toNat - 48)) 0

def LONG_MAX : Int := 9223372036854775807
def LONG_MIN : Int := -9223372036854775808

/-- strtol clamps out-of-range results to LONG_MIN / LONG_MAX. -/
def clampLong (v : Int) : Int := max LONG_MIN (min LONG_MAX v)

structure StrtolOut where
  value : Int
  rest : List Char
deriving DecidableEq

/-- strtol(s, &end, 10): skip leading space characters, an optional sign,
    then digits; `rest` is what `end` points at afterwards.  When no digits
    were consumed the value is 0 and `end` is reset to the start of `s`. -/
def strtol10 (s : String) : StrtolOut :=
  let cs := s.toList
  let afterSpace := cs.dropWhile (fun c => isCSpace c)
  let signed : Int × List Char :=
    match afterSpace with
    | '-' :: r => (-1, r)
    | '+' :: r => (1, r)
    | r => (1, r)
  let ds := signed.2.takeWhile (fun c => c.isDigit)
  let rest := signed.2.dropWhile (fun c => c.isDigit)
  if ds = [] then { value := 0, rest := cs }
  else { value := clampLong (signed.1 * (digitsToNat ds : Int)), rest := rest }

/-- Conversion of a C long to a C int: wrap modulo 2^32 into
    [-2^31, 2^31). -/
def toInt32 (v : Int) : Int := (v + 2147483648) % 4294967296 - 2147483648

/-! ## The data model of one intercepted call -/

/-- The two environment variables as seen by getenv during one call. -/
structure Env where
  REBIND_OLD_PORT : Option String
  REBIND_NEW_PORT : Option String
deriving DecidableEq

/-- The argument triple handed to the real bind implementation. -/
structure RealCall where
  sockfd : Int
  addr : Option (List Nat)
  addrlen : Nat
deriving DecidableEq

/-- Observable trace of one completed (non-faulting) call of the shim:
    which branch was taken, the single delegated call, the pair
    (return value, errno state) the shim returns, whether
    setsockopt(IPV6_V6ONLY, 0) was attempted, and the content of the
    caller-supplied address object after the call returns. -/
structure BindRun where
  moved : Bool
  call : RealCall
  ret : Int × Int
  v6attempt : Bool
  origAfter : List Nat
deriving DecidableEq

/-- The bytes of the buffer handed to the real implementation
    (empty if the shim delegated a NULL pointer). -/
def calledBytes (r : BindRun) : List Nat := r.call.addr.getD []

/-! ## The intercepted bind, translated from src/rebind.c -/

/-- Lines 71-84 of the source: decide whether to move the socket.
    Returns `some newport` exactly when the code sets do_move = 1,
    carrying the value the variable `newport` holds at that point. -/
def doMoveNewport (env : Env) (family : Nat) (askport : Nat) : Option Int :=
  if family = AF_INET ∨ family = AF_INET6 then
    match env.REBIND_OLD_PORT, env.REBIND_NEW_PORT with
    | some PORT_OLD, some PORT_NEW =>
      if PORT_OLD ≠ "" ∧ PORT_NEW ≠ "" then
        let r1 := strtol10 PORT_OLD
        let r2 := strtol10 PORT_NEW
        let oldport := toInt32 r1.value
        let newport := toInt32 r2.value
        if oldport ≠ 0 ∧ r1.rest = [] ∧ newport ≠ 0 ∧ r2.rest = [] ∧
            oldport = (askport : Int)
        then some newport
        else none
      else none
    | _, _ => none
  else none

/-- Lines 96-101: addr_tmp (stack garbage `junk`, forced to the 128 bytes
    of a sockaddr_storage) after memcpy of the first
    `addrlen_tmp = min addrlen 128` bytes of the original object. -/
def mkAddrTmp (junk m : List Nat) (addrlen_tmp : Nat) : List Nat :=
  writeBytes ((junk ++ List.replicate SIZEOF_SOCKADDR_STORAGE 0).take
      SIZEOF_SOCKADDR_STORAGE)
    0 ((List.range addrlen_tmp).map (fun i => byteAt m i))

/-- Lines 104-107: the IPv4 rewrite on the private copy.
    sin_addr := htonl(INADDR_LOOPBACK), then sin_port := htons(newport). -/
def rewriteV4 (buf : List Nat) (newport : Int) : List Nat :=
  writeBytes (writeBytes buf 4 [127, 0, 0, 1]) 2 (htons16 newport)

/-- Lines 108-118: the IPv6 rewrite on the private copy.
    sin6_addr := v4_loopback_mapped, sin6_port := htons(newport),
    sin6_scope_id := 0. -/
def rewriteV6 (buf : List Nat) (newport : Int) : List Nat :=
  writeBytes
    (writeBytes (writeBytes buf 8 v4_loopback_mapped) 2 (htons16 newport))
    24 [0, 0, 0, 0]

/-- The intercepted bind of src/rebind.c, for one call.
    `real` is the function pointer obtained from dlsym(RTLD_NEXT, "bind");
    `sres` is the (discarded) result of the setsockopt call in the IPv6
    branch; `junk` is the garbage stack content of addr_tmp.
    Returns `none` when the call faults: with a NULL `addr` the family is
    AF_UNSPEC, which is not AF_INET, and the else branch of the port/IP
    extraction (lines 58-65) reads addr_in6->sin6_port and sin6_addr
    through the NULL pointer.  The inet_ntop calls only fill the local
    addr_str used by the compiled-out DEBUG output and are not modelled. -/
def bind (real : RealCall → Int × Int) (sres : Int) (env : Env)
    (junk : List Nat) (sockfd : Int) (addr : Option (List Nat))
    (addrlen : Nat) : Option BindRun :=
  match addr with
  | none => none
  | some m =>
    let family := getFamily m
    let askport := readPort16 m
    match doMoveNewport env family askport with
    | none =>
      -- lines 86-91: pass everything right through to the real bind
      let call : RealCall := ⟨sockfd, some m, addrlen⟩
      some ⟨false, call, real call, false, m⟩
    | some newport =>
      let addrlen_tmp := min addrlen SIZEOF_SOCKADDR_STORAGE
      let addr_tmp := mkAddrTmp junk m addrlen_tmp
      if family = AF_INET then
        let call : RealCall :=
          ⟨sockfd, some (rewriteV4 addr_tmp newport), addrlen_tmp⟩
        some ⟨true, call, real call, false, m⟩
      else
        -- line 114: (void)setsockopt(sockfd, IPPROTO_IPV6, IPV6_V6ONLY, ...)
        let _ := sres
        let call : RealCall :=
          ⟨sockfd, some (rewriteV6 addr_tmp newport), addrlen_tmp⟩
        some ⟨true, call, real call, true, m⟩

/-! ## Process-level trace model

The only state of the shim that survives a call is the static function
pointer `func`, lazily resolved on first use.  The environment is read by
getenv inside every call. -/

structure ShimState where
  func : Option (RealCall → Int × Int)

/-- The arguments of one call in a trace, including the environment in
    effect during that call. -/
structure BindCallArgs where
  env : Env
  sres : Int
  junk : List Nat
  sockfd : Int
  addr : Option (List Nat)
  addrlen : Nat

/-- One call of the shim at process level: resolve `func` if this is the
    first call (line 53: if (!func) func = dlsym(RTLD_NEXT, "bind")),
    then run the body. -/
def bindCall (resolver : RealCall → Int × Int) (st : ShimState)
    (c : BindCallArgs) : ShimState × Option BindRun :=
  let f := st.func.getD resolver
  (⟨some f⟩, bind f c.sres c.env c.junk c.sockfd c.addr c.addrlen)

/-- Run a sequence of bind calls through the shim, threading its static
    state. -/
def runBindCalls (resolver : RealCall → Int × Int) (st : ShimState) :
    List BindCallArgs → List (Option BindRun)
  | [] => []
  | c :: rest =>
    let p := bindCall resolver st c
    p.2 :: runBindCalls resolver p.1 rest

/-! ## Claim-side definitions (from the words of the claims, not the code) -/

/-- Claim C1 words: the string is non-empty and parses entirely as a
    positive base-10 integer. -/
def parsesAsPositiveInt (s : String) : Bool :=
  s ≠ "" && s.toList.all (fun c => c.isDigit) && digitsToNat s.toList ≠ 0

/-- Claim C1 words: redirection selected iff the family is IPv4 or IPv6,
    both variables are present, non-empty and parse entirely as positive
    base-10 integers, and the parsed old-port value equals the requested
    port read from the address in network byte order. -/
def specC1Selected (env : Env) (m : List Nat) : Bool :=
  (getFamily m == AF_INET || getFamily m == AF_INET6) &&
  (match env.REBIND_OLD_PORT with
   | some s => parsesAsPositiveInt s
   | none => false) &&
  (match env.REBIND_NEW_PORT with
   | some s => parsesAsPositiveInt s
   | none => false) &&
  (match env.REBIND_OLD_PORT with
   | some s => digitsToNat s.toList == readPort16 m
   | none => false)

/-! ## Helper lemmas about the byte-buffer primitives -/

theorem byteAt_set (m : List Nat) (i j v : Nat) :
    byteAt (m.set i v) j = if i = j ∧ j < m.length then v else byteAt m j := by
  unfold byteAt
  by_cases h : i = j
  · subst h
    by_cases hl : i < m.length
    · simp [List.getElem?_set_self hl, hl]
    · simp [hl, List.set_eq_of_length_le (Nat.le_of_not_lt hl)]
  · simp [List.getElem?_set_ne h, h]

theorem length_writeBytes (vs : List Nat) (m : List Nat) (i : Nat) :
    (writeBytes m i vs).length = m.length := by
  induction vs generalizing m i with
  | nil => rfl
  | cons v vs ih => simp [writeBytes, ih]

theorem byteAt_writeBytes_lt (vs : List Nat) (m : List Nat) (i j : Nat)
    (h : j < i) : byteAt (writeBytes m i vs) j = byteAt m j := by
  induction vs generalizing m i with
  | nil => rfl
  | cons v vs ih =>
    rw [writeBytes, ih _ _ (by omega), byteAt_set]
    simp [show ¬ i = j by omega]

theorem byteAt_writeBytes_ge (vs : List Nat) (m : List Nat) (i j : Nat)
    (h : i + vs.length ≤ j) : byteAt (writeBytes m i vs) j = byteAt m j := by
  induction vs generalizing m i with
  | nil => rfl
  | cons v vs ih =>
    simp only [List.length_cons] at h
    rw [writeBytes, ih _ _ (by omega), byteAt_set]
    simp [show ¬ i = j by omega]

theorem byteAt_writeBytes_in (vs : List Nat) (m : List Nat) (i j : Nat)
    (h1 : i ≤ j) (h2 : j < i + vs.length) (h3 : j < m.length) :
    byteAt (writeBytes m i vs) j = vs.getD (j - i) 0 := by
  induction vs generalizing m i with
  | nil => simp at h2; omega
  | cons v vs ih =>
    by_cases hj : j = i
    · subst hj
      rw [writeBytes, byteAt_writeBytes_lt _ _ _ _ (by omega), byteAt_set]
      simp [h3]
    · rw [writeBytes, ih _ _ (by omega) (by simp at h2 ⊢; omega)
        (by simpa using h3)]
      have : j - i = (j - (i + 1)) + 1 := by omega
      simp [this]

theorem length_mkAddrTmp (junk m : List Nat) (n : Nat) :
    (mkAddrTmp junk m n).length = 128 := by
  simp [mkAddrTmp, length_writeBytes, SIZEOF_SOCKADDR_STORAGE]

theorem byteAt_mkAddrTmp_copied (junk m : List Nat) (n i : Nat)
    (hn : n ≤ 128) (hi : i < n) :
    byteAt (mkAddrTmp junk m n) i = byteAt m i := by
  unfold mkAddrTmp
  rw [byteAt_writeBytes_in _ _ 0 i (by omega) (by simpa using hi)
    (by simp [SIZEOF_SOCKADDR_STORAGE]; omega)]
  simp [List.getD_eq_getElem?_getD, List.getElem?_map, List.getElem?_range hi]

theorem htons16_length (v : Int) : (htons16 v).length = 2 := rfl

/-! ## Characterization of the branches of `bind` -/

theorem doMove_some_family (env : Env) (f a : Nat) (np : Int)
    (h : doMoveNewport env f a = some np) : f = AF_INET ∨ f = AF_INET6 := by
  by_cases hf : f = AF_INET ∨ f = AF_INET6
  · exact hf
  · rw [doMoveNewport, if_neg hf] at h
    exact absurd h (by simp)

theorem doMove_newport_value (env : Env) (f a : Nat) (np : Int) (pn : String)
    (hpn : env.REBIND_NEW_PORT = some pn)
    (h : doMoveNewport env f a = some np) :
    np = toInt32 (strtol10 pn).value := by
  rcases env with ⟨po?, pn?⟩
  simp only at hpn
  subst hpn
  unfold doMoveNewport at h
  rcases po? with _ | po
  · simp at h
  · split_ifs at h
    simp_all

theorem bind_eq_passthrough (real : RealCall → Int × Int) (sres : Int)
    (env : Env) (junk : List Nat) (sockfd : Int) (m : List Nat)
    (addrlen : Nat)
    (h : doMoveNewport env (getFamily m) (readPort16 m) = none) :
    bind real sres env junk sockfd (some m) addrlen =
      some ⟨false, ⟨sockfd, some m, addrlen⟩,
            real ⟨sockfd, some m, addrlen⟩, false, m⟩ := by
  simp only [bind]
  rw [h]

theorem bind_eq_moveV4 (real : RealCall → Int × Int) (sres : Int)
    (env : Env) (junk : List Nat) (sockfd : Int) (m : List Nat)
    (addrlen : Nat) (np : Int)
    (hfam : getFamily m = AF_INET)
    (h : doMoveNewport env (getFamily m) (readPort16 m) = some np) :
    bind real sres env junk sockfd (some m) addrlen =
      some ⟨true,
            ⟨sockfd, some (rewriteV4 (mkAddrTmp junk m (min addrlen 128)) np),
              min addrlen 128⟩,
            real ⟨sockfd,
              some (rewriteV4 (mkAddrTmp junk m (min addrlen 128)) np),
              min addrlen 128⟩,
            false, m⟩ := by
  simp only [bind]
  rw [h]
  simp [hfam, SIZEOF_SOCKADDR_STORAGE]

theorem bind_eq_moveV6 (real : RealCall → Int × Int) (sres : Int)
    (env : Env) (junk : List Nat) (sockfd : Int) (m : List Nat)
    (addrlen : Nat) (np : Int)
    (hfam : getFamily m = AF_INET6)
    (h : doMoveNewport env (getFamily m) (readPort16 m) = some np) :
    bind real sres env junk sockfd (some m) addrlen =
      some ⟨true,
            ⟨sockfd, some (rewriteV6 (mkAddrTmp junk m (min addrlen 128)) np),
              min addrlen 128⟩,
            real ⟨sockfd,
              some (rewriteV6 (mkAddrTmp junk m (min addrlen 128)) np),
              min addrlen 128⟩,
            true, m⟩ := by
  simp only [bind]
  rw [h]
  simp [hfam, AF_INET, AF_INET6, SIZEOF_SOCKADDR_STORAGE]

theorem calledBytes_mk (mv : Bool) (fd : Int) (bs : List Nat) (ln : Nat)
    (rt : Int × Int) (va : Bool) (oa : List Nat) :
    calledBytes ⟨mv, ⟨fd, some bs, ln⟩, rt, va, oa⟩ = bs := rfl

theorem bind_moved (real : RealCall → Int × Int) (sres : Int) (env : Env)
    (junk : List Nat) (sockfd : Int) (m : List Nat) (addrlen : Nat) :
    (bind real sres env junk sockfd (some m) addrlen).map
        (fun r => r.moved) =
      some (doMoveNewport env (getFamily m) (readPort16 m)).isSome := by
  cases h : doMoveNewport env (getFamily m) (readPort16 m) with
  | none => rw [bind_eq_passthrough real sres env junk sockfd m addrlen h]; rfl
  | some np =>
    rcases doMove_some_family _ _ _ _ h with hfam | hfam
    · rw [bind_eq_moveV4 real sres env junk sockfd m addrlen np hfam h]; rfl
    · rw [bind_eq_moveV6 real sres env junk sockfd m addrlen np hfam h]; rfl

theorem length_rewriteV4 (buf : List Nat) (np : Int) :
    (rewriteV4 buf np).length = buf.length := by
  simp [rewriteV4, length_writeBytes]

theorem length_rewriteV6 (buf : List Nat) (np : Int) :
    (rewriteV6 buf np).length = buf.length := by
  simp [rewriteV6, length_writeBytes]

theorem rewriteV4_bytes (buf : List Nat) (np : Int) (h : buf.length = 128) :
    byteAt (rewriteV4 buf np) 4 = 127 ∧ byteAt (rewriteV4 buf np) 5 = 0 ∧
    byteAt (rewriteV4 buf np) 6 = 0 ∧ byteAt (rewriteV4 buf np) 7 = 1 ∧
    [byteAt (rewriteV4 buf np) 2, byteAt (rewriteV4 buf np) 3] =
      htons16 np := by
  unfold rewriteV4
  refine ⟨?_, ?_, ?_, ?_, ?_⟩
  · rw [byteAt_writeBytes_ge _ _ _ _ (by simp [htons16_length]),
      byteAt_writeBytes_in _ _ _ _ (by omega) (by simp) (by omega)]
    decide
  · rw [byteAt_writeBytes_ge _ _ _ _ (by simp [htons16_length]),
      byteAt_writeBytes_in _ _ _ _ (by omega) (by simp) (by omega)]
    decide
  · rw [byteAt_writeBytes_ge _ _ _ _ (by simp [htons16_length]),
      byteAt_writeBytes_in _ _ _ _ (by omega) (by simp) (by omega)]
    decide
  · rw [byteAt_writeBytes_ge _ _ _ _ (by simp [htons16_length]),
      byteAt_writeBytes_in _ _ _ _ (by omega) (by simp) (by omega)]
    decide
  · rw [byteAt_writeBytes_in _ _ _ _ (by omega)
        (by simp [htons16_length]) (by simp [length_writeBytes]; omega),
      byteAt_writeBytes_in _ _ _ _ (by omega)
        (by simp [htons16_length]) (by simp [length_writeBytes]; omega)]
    simp [htons16]

theorem rewriteV6_bytes (buf : List Nat) (np : Int) (h : buf.length = 128) :
    readBytes (rewriteV6 buf np) 8 16 = v4_loopback_mapped ∧
    [byteAt (rewriteV6 buf np) 2, byteAt (rewriteV6 buf np) 3] =
      htons16 np ∧
    readBytes (rewriteV6 buf np) 24 4 = [0, 0, 0, 0] := by
  have hpt : ∀ k, k < 16 →
      byteAt (rewriteV6 buf np) (8 + k) = v4_loopback_mapped.getD k 0 := by
    intro k hk
    unfold rewriteV6
    rw [byteAt_writeBytes_lt _ _ _ _ (by omega),
      byteAt_writeBytes_ge _ _ _ _ (by simp [htons16_length]; omega),
      byteAt_writeBytes_in _ _ _ _ (by omega)
        (by simp [v4_loopback_mapped]; omega) (by omega)]
    rw [show 8 + k - 8 = k by omega]
  have hsc : ∀ k, k < 4 →
      byteAt (rewriteV6 buf np) (24 + k) = 0 := by
    intro k hk
    unfold rewriteV6
    rw [byteAt_writeBytes_in _ _ _ _ (by omega) (by simp; omega)
      (by simp [length_writeBytes]; omega)]
    interval_cases k <;> rfl
  refine ⟨?_, ?_, ?_⟩
  · unfold readBytes
    rw [List.map_congr_left (fun k hk => hpt k (by simpa using hk))]
    decide
  · unfold rewriteV6
    rw [byteAt_writeBytes_lt _ _ _ _ (by omega),
      byteAt_writeBytes_in _ _ _ _ (by omega)
        (by simp [htons16_length]) (by simp [length_writeBytes]; omega),
      byteAt_writeBytes_lt _ _ _ _ (by omega),
      byteAt_writeBytes_in _ _ _ _ (by omega)
        (by simp [htons16_length]) (by simp [length_writeBytes]; omega)]
    simp [htons16]
  · unfold readBytes
    rw [List.map_congr_left (fun k hk => hsc k (by simpa using hk))]
    decide

/-! ## Arithmetic facts about the int narrowing -/

theorem toInt32_emod_65536 (v : Int) : toInt32 v % 65536 = v % 65536 := by
  unfold toInt32
  omega

theorem readPort16_htons (buf : List Nat) (np : Int)
    (hp : [byteAt buf 2, byteAt buf 3] = htons16 np) :
    readPort16 buf = (np % 65536).toNat := by
  have h2 : byteAt buf 2 = (np % 65536).toNat / 256 := by
    have := congrArg (fun l => l.getD 0 0) hp
    simpa [htons16] using this
  have h3 : byteAt buf 3 = (np % 65536).toNat % 256 := by
    have := congrArg (fun l => l.getD 1 0) hp
    simpa [htons16] using this
  unfold readPort16
  rw [h2, h3]
  omega

/-! ## Flat characterization of the redirect decision -/

theorem doMoveNewport_somesome (po pn : String) (f a : Nat) :
    doMoveNewport ⟨some po, some pn⟩ f a =
      if f = AF_INET ∨ f = AF_INET6 then
        if po ≠ "" ∧ pn ≠ "" then
          if toInt32 (strtol10 po).value ≠ 0 ∧ (strtol10 po).rest = [] ∧
              toInt32 (strtol10 pn).value ≠ 0 ∧ (strtol10 pn).rest = [] ∧
              toInt32 (strtol10 po).value = (a : Int)
          then some (toInt32 (strtol10 pn).value)
          else none
        else none
      else none := rfl

theorem doMoveNewport_noneL (pn? : Option String) (f a : Nat) :
    doMoveNewport ⟨none, pn?⟩ f a = none := by
  unfold doMoveNewport
  rcases pn? with _ | pn <;> split_ifs <;> rfl

theorem doMoveNewport_noneR (po? : Option String) (f a : Nat) :
    doMoveNewport ⟨po?, none⟩ f a = none := by
  unfold doMoveNewport
  rcases po? with _ | po <;> split_ifs <;> rfl

theorem doMove_isSome_iff (env : Env) (f a : Nat) :
    (doMoveNewport env f a).isSome = true ↔
      ((f = AF_INET ∨ f = AF_INET6) ∧
        ∃ po pn, env.REBIND_OLD_PORT = some po ∧
          env.REBIND_NEW_PORT = some pn ∧
          po ≠ "" ∧ pn ≠ "" ∧
          toInt32 (strtol10 po).value ≠ 0 ∧ (strtol10 po).rest = [] ∧
          toInt32 (strtol10 pn).value ≠ 0 ∧ (strtol10 pn).rest = [] ∧
          toInt32 (strtol10 po).value = (a : Int)) := by
  rcases env with ⟨po?, pn?⟩
  rcases po? with _ | po
  · simp [doMoveNewport_noneL]
  rcases pn? with _ | pn
  · simp [doMoveNewport_noneR]
  rw [doMoveNewport_somesome]
  split_ifs with hf h1 h2
  · simp only [Option.isSome_some, true_iff]
    exact ⟨hf, po, pn, rfl, rfl, h1.1, h1.2, h2.1, h2.2.1, h2.2.2.1,
      h2.2.2.2.1, h2.2.2.2.2⟩
  · simp only [Option.isSome_none, Bool.false_eq_true, false_iff]
    rintro ⟨-, po', pn', hpo, hpn, hx⟩
    cases hpo; cases hpn
    exact h2 ⟨hx.2.2.1, hx.2.2.2.1, hx.2.2.2.2.1, hx.2.2.2.2.2.1,
      hx.2.2.2.2.2.2⟩
  · simp only [Option.isSome_none, Bool.false_eq_true, false_iff]
    rintro ⟨-, po', pn', hpo, hpn, hx⟩
    cases hpo; cases hpn
    exact h1 ⟨hx.1, hx.2.1⟩
  · simp only [Option.isSome_none, Bool.false_eq_true, false_iff]
    rintro ⟨hf2, -⟩
    exact hf hf2

/-! ## Concrete inputs used by witnesses and counterexamples -/

/-- An abstract real bind that always succeeds with errno state 0. -/
def real0 : RealCall → Int × Int := fun _ => (0, 0)

/-- A sockaddr_in object: family AF_INET, port 80, address 10.0.0.1. -/
def m0v4 : List Nat := [2, 0, 0, 80, 10, 0, 0, 1, 0, 0, 0, 0, 0, 0, 0, 0]

/-- A sockaddr_in6 object: family AF_INET6, port 80, address ::1,
    scope id 0. -/
def m0v6 : List Nat :=
  [10, 0, 0, 80, 0, 0, 0, 0,
   0, 0, 0, 0, 0, 0, 0, 0, 0, 0, 0, 0, 0, 0, 0, 1,
   0, 0, 0, 0]

/-- A 200-byte object whose first 16 bytes are `m0v4` (used with an
    oversized declared length). -/
def m200 : List Nat := m0v4 ++ List.replicate 184 7

def envStd : Env := ⟨some "80", some "90"⟩
def envNone : Env := ⟨none, none⟩
def envNeg : Env := ⟨some "80", some "-90"⟩
def envBig : Env := ⟨some "80", some "65536"⟩

def runDf : BindRun := ⟨false, ⟨0, none, 0⟩, (0, 0), false, []⟩

def runV4 : BindRun := (bind real0 0 envStd [] 3 (some m0v4) 16).getD runDf
def runV6 : BindRun := (bind real0 0 envStd [] 5 (some m0v6) 28).getD runDf
def runPass : BindRun :=
  (bind real0 0 envNone [] 3 (some m0v4) 16).getD runDf
def runTrunc : BindRun :=
  (bind real0 0 envStd [] 3 (some m200) 200).getD runDf
def runBig : BindRun := (bind real0 0 envBig [] 3 (some m0v4) 16).getD runDf

/-! ## The claims -/

/-- C1 (counterexample): with REBIND_OLD_PORT = "80" and
    REBIND_NEW_PORT = "-90", an IPv4 bind request for port 80 IS
    redirected, although "-90" does not parse as a positive base-10
    integer, so the claimed if-and-only-if condition is false for this
    call: the code only requires the parsed values to be non-zero. -/
theorem c1_counterexample :
    (bind real0 0 envNeg [] 3 (some m0v4) 16).map (fun r => r.moved) =
        some true ∧
      specC1Selected envNeg m0v4 = false := by
  constructor
  · decide
  · decide

/-- C1 (amended): for every bind call with a non-null address,
    redirection is selected if and only if the address family is IPv4 or
    IPv6, both REBIND_OLD_PORT and REBIND_NEW_PORT are present and
    non-empty, strtol (base 10, leading whitespace and a sign accepted)
    consumes each string entirely, both parsed values are non-zero after
    conversion to a 32-bit int, and the converted old-port value equals
    the requested port read from the address in network byte order. -/
theorem c1_redirect_iff_amended (real : RealCall → Int × Int) (sres : Int)
    (env : Env) (junk : List Nat) (sockfd : Int) (m : List Nat)
    (addrlen : Nat) :
    (bind real sres env junk sockfd (some m) addrlen).map
        (fun r => r.moved) = some true ↔
      ((getFamily m = AF_INET ∨ getFamily m = AF_INET6) ∧
        ∃ po pn, env.REBIND_OLD_PORT = some po ∧
          env.REBIND_NEW_PORT = some pn ∧
          po ≠ "" ∧ pn ≠ "" ∧
          toInt32 (strtol10 po).value ≠ 0 ∧ (strtol10 po).rest = [] ∧
          toInt32 (strtol10 pn).value ≠ 0 ∧ (strtol10 pn).rest = [] ∧
          toInt32 (strtol10 po).value = (readPort16 m : Int)) := by
  rw [bind_moved, Option.some_inj]
  exact doMove_isSome_iff env (getFamily m) (readPort16 m)

/-- C2: every redirected IPv4 bind call hands the real implementation a
    buffer whose sin_addr field holds 127.0.0.1 and whose sin_port field
    holds the configured new port in network byte order, whatever IP was
    originally requested. -/
theorem c2_v4_redirect_loopback (real : RealCall → Int × Int) (sres : Int)
    (env : Env) (junk : List Nat) (sockfd : Int) (m : List Nat)
    (addrlen : Nat) (pn : String) (run : BindRun)
    (hfam : getFamily m = AF_INET)
    (hpn : env.REBIND_NEW_PORT = some pn)
    (hrun : bind real sres env junk sockfd (some m) addrlen = some run)
    (hmv : run.moved = true) :
    run.call.addr = some (calledBytes run) ∧
    byteAt (calledBytes run) 4 = 127 ∧ byteAt (calledBytes run) 5 = 0 ∧
    byteAt (calledBytes run) 6 = 0 ∧ byteAt (calledBytes run) 7 = 1 ∧
    [byteAt (calledBytes run) 2, byteAt (calledBytes run) 3] =
      htons16 (toInt32 (strtol10 pn).value) := by
  cases h : doMoveNewport env (getFamily m) (readPort16 m) with
  | none =>
    rw [bind_eq_passthrough real sres env junk sockfd m addrlen h] at hrun
    have hr := Option.some_inj.mp hrun
    subst hr
    simp at hmv
  | some np =>
    have hnp := doMove_newport_value env _ _ np pn hpn h
    subst hnp
    rw [bind_eq_moveV4 real sres env junk sockfd m addrlen _ hfam h] at hrun
    have hr := Option.some_inj.mp hrun
    subst hr
    have hb := rewriteV4_bytes (mkAddrTmp junk m (min addrlen 128))
      (toInt32 (strtol10 pn).value) (length_mkAddrTmp junk m _)
    rw [calledBytes_mk]
    exact ⟨rfl, hb.1, hb.2.1, hb.2.2.1, hb.2.2.2.1, hb.2.2.2.2⟩

/-- C2 witness: old = 80, new = 90, IPv4 request for 10.0.0.1:80. -/
theorem c2_witness :
    runV4.call.addr = some (calledBytes runV4) ∧
    byteAt (calledBytes runV4) 4 = 127 ∧ byteAt (calledBytes runV4) 5 = 0 ∧
    byteAt (calledBytes runV4) 6 = 0 ∧ byteAt (calledBytes runV4) 7 = 1 ∧
    [byteAt (calledBytes runV4) 2, byteAt (calledBytes runV4) 3] =
      htons16 (toInt32 (strtol10 "90").value) :=
  c2_v4_redirect_loopback real0 0 envStd [] 3 m0v4 16 "90" runV4
    (by decide) rfl rfl rfl

/-- C3: every redirected IPv6 bind call hands the real implementation a
    buffer whose sin6_addr holds the IPv4-mapped IPv6 loopback (ten zero
    bytes, 0xFF 0xFF, then 127 0 0 1), whose sin6_port holds the
    configured new port in network byte order, and whose sin6_scope_id
    is zero. -/
theorem c3_v6_redirect_mapped_loopback (real : RealCall → Int × Int)
    (sres : Int) (env : Env) (junk : List Nat) (sockfd : Int)
    (m : List Nat) (addrlen : Nat) (pn : String) (run : BindRun)
    (hfam : getFamily m = AF_INET6)
    (hpn : env.REBIND_NEW_PORT = some pn)
    (hrun : bind real sres env junk sockfd (some m) addrlen = some run)
    (hmv : run.moved = true) :
    run.call.addr = some (calledBytes run) ∧
    readBytes (calledBytes run) 8 16 = v4_loopback_mapped ∧
    [byteAt (calledBytes run) 2, byteAt (calledBytes run) 3] =
      htons16 (toInt32 (strtol10 pn).value) ∧
    readBytes (calledBytes run) 24 4 = [0, 0, 0, 0] := by
  cases h : doMoveNewport env (getFamily m) (readPort16 m) with
  | none =>
    rw [bind_eq_passthrough real sres env junk sockfd m addrlen h] at hrun
    have hr := Option.some_inj.mp hrun
    subst hr
    simp at hmv
  | some np =>
    have hnp := doMove_newport_value env _ _ np pn hpn h
    subst hnp
    rw [bind_eq_moveV6 real sres env junk sockfd m addrlen _ hfam h] at hrun
    have hr := Option.some_inj.mp hrun
    subst hr
    have hb := rewriteV6_bytes (mkAddrTmp junk m (min addrlen 128))
      (toInt32 (strtol10 pn).value) (length_mkAddrTmp junk m _)
    rw [calledBytes_mk]
    exact ⟨rfl, hb.1, hb.2.1, hb.2.2⟩

/-- C3 witness: old = 80, new = 90, IPv6 request for [::1]:80. -/
theorem c3_witness :
    runV6.call.addr = some (calledBytes runV6) ∧
    readBytes (calledBytes runV6) 8 16 = v4_loopback_mapped ∧
    [byteAt (calledBytes runV6) 2, byteAt (calledBytes runV6) 3] =
      htons16 (toInt32 (strtol10 "90").value) ∧
    readBytes (calledBytes runV6) 24 4 = [0, 0, 0, 0] :=
  c3_v6_redirect_mapped_loopback real0 0 envStd [] 5 m0v6 28 "90" runV6
    (by decide) rfl rfl rfl

/-- C4: the result (return value and errno state) of every completed call
    is exactly the result of the single delegated call of the real
    implementation, and every non-redirected call delegates exactly the
    original socket descriptor, address and length. -/
theorem c4_result_transparent (real : RealCall → Int × Int) (sres : Int)
    (env : Env) (junk : List Nat) (sockfd : Int) (m : List Nat)
    (addrlen : Nat) (run : BindRun)
    (hrun : bind real sres env junk sockfd (some m) addrlen = some run) :
    (run.moved = false → run.call = ⟨sockfd, some m, addrlen⟩) ∧
    run.ret = real run.call := by
  cases h : doMoveNewport env (getFamily m) (readPort16 m) with
  | none =>
    rw [bind_eq_passthrough real sres env junk sockfd m addrlen h] at hrun
    have hr := Option.some_inj.mp hrun
    subst hr
    exact ⟨fun _ => rfl, rfl⟩
  | some np =>
    rcases doMove_some_family _ _ _ _ h with hfam | hfam
    · rw [bind_eq_moveV4 real sres env junk sockfd m addrlen np hfam h]
        at hrun
      have hr := Option.some_inj.mp hrun
      subst hr
      exact ⟨fun hc => by simp at hc, rfl⟩
    · rw [bind_eq_moveV6 real sres env junk sockfd m addrlen np hfam h]
        at hrun
      have hr := Option.some_inj.mp hrun
      subst hr
      exact ⟨fun hc => by simp at hc, rfl⟩

/-- C4 witness: with no configuration the call passes straight through. -/
theorem c4_witness :
    (runPass.moved = false → runPass.call = ⟨3, some m0v4, 16⟩) ∧
    runPass.ret = real0 runPass.call :=
  c4_result_transparent real0 0 envNone [] 3 m0v4 16 runPass rfl

/-- C5: the claim says a bind call with a null address pointer skips
    extraction and passes through normally; in the code the family then is
    AF_UNSPEC, the extraction else-branch reads sin6_port and sin6_addr
    through the null pointer, and the call faults before reaching the real
    implementation.  The model evaluates to the fault on every such
    call. -/
theorem c5_null_addr_faults (real : RealCall → Int × Int) (sres : Int)
    (env : Env) (junk : List Nat) (sockfd : Int) (addrlen : Nat) :
    bind real sres env junk sockfd none addrlen = none := rfl

/-- C6: the caller-supplied address object is byte-for-byte unchanged
    when the call returns, on every completed call, redirected or not. -/
theorem c6_caller_buffer_unchanged (real : RealCall → Int × Int)
    (sres : Int) (env : Env) (junk : List Nat) (sockfd : Int)
    (m : List Nat) (addrlen : Nat) (run : BindRun)
    (hrun : bind real sres env junk sockfd (some m) addrlen = some run) :
    run.origAfter = m := by
  cases h : doMoveNewport env (getFamily m) (readPort16 m) with
  | none =>
    rw [bind_eq_passthrough real sres env junk sockfd m addrlen h] at hrun
    have hr := Option.some_inj.mp hrun
    subst hr
    rfl
  | some np =>
    rcases doMove_some_family _ _ _ _ h with hfam | hfam
    · rw [bind_eq_moveV4 real sres env junk sockfd m addrlen np hfam h]
        at hrun
      have hr := Option.some_inj.mp hrun
      subst hr
      rfl
    · rw [bind_eq_moveV6 real sres env junk sockfd m addrlen np hfam h]
        at hrun
      have hr := Option.some_inj.mp hrun
      subst hr
      rfl

/-- C6 witness: a redirected IPv4 call leaves the original bytes
    unchanged. -/
theorem c6_witness : runV4.origAfter = m0v4 :=
  c6_caller_buffer_unchanged real0 0 envStd [] 3 m0v4 16 runV4 rfl

/-- C7: every redirected call copies the original object into a private
    128-byte sockaddr_storage buffer, capping the copied length and the
    length passed on at 128 bytes, and still returns the real
    implementation result (truncation is not an error).  Bytes past both
    rewritten structure forms, up to the capped length, are exactly the
    original bytes. -/
theorem c7_truncating_copy (real : RealCall → Int × Int) (sres : Int)
    (env : Env) (junk : List Nat) (sockfd : Int) (m : List Nat)
    (addrlen : Nat) (run : BindRun)
    (hrun : bind real sres env junk sockfd (some m) addrlen = some run)
    (hmv : run.moved = true) :
    run.call.addrlen = min addrlen 128 ∧
    (calledBytes run).length = 128 ∧
    run.call.addr = some (calledBytes run) ∧
    run.ret = real run.call ∧
    readBytes (calledBytes run) 28 (min addrlen 128 - 28) =
      readBytes m 28 (min addrlen 128 - 28) := by
  cases h : doMoveNewport env (getFamily m) (readPort16 m) with
  | none =>
    rw [bind_eq_passthrough real sres env junk sockfd m addrlen h] at hrun
    have hr := Option.some_inj.mp hrun
    subst hr
    simp at hmv
  | some np =>
    rcases doMove_some_family _ _ _ _ h with hfam | hfam
    · rw [bind_eq_moveV4 real sres env junk sockfd m addrlen np hfam h]
        at hrun
      have hr := Option.some_inj.mp hrun
      subst hr
      rw [calledBytes_mk]
      refine ⟨rfl, ?_, rfl, rfl, ?_⟩
      · rw [length_rewriteV4, length_mkAddrTmp]
      · unfold readBytes
        apply List.map_congr_left
        intro k hk
        have hk' : k < min addrlen 128 - 28 := by simpa using hk
        unfold rewriteV4
        rw [byteAt_writeBytes_ge _ _ _ _ (by simp [htons16_length]; omega),
          byteAt_writeBytes_ge _ _ _ _ (by simp; omega),
          byteAt_mkAddrTmp_copied junk m _ _ (Nat.min_le_right _ _)
            (by omega)]
    · rw [bind_eq_moveV6 real sres env junk sockfd m addrlen np hfam h]
        at hrun
      have hr := Option.some_inj.mp hrun
      subst hr
      rw [calledBytes_mk]
      refine ⟨rfl, ?_, rfl, rfl, ?_⟩
      · rw [length_rewriteV6, length_mkAddrTmp]
      · unfold readBytes
        apply List.map_congr_left
        intro k hk
        have hk' : k < min addrlen 128 - 28 := by simpa using hk
        unfold rewriteV6
        rw [byteAt_writeBytes_ge _ _ _ _ (by simp),
          byteAt_writeBytes_ge _ _ _ _ (by simp [htons16_length]; omega),
          byteAt_writeBytes_ge _ _ _ _
            (by simp [v4_loopback_mapped]; omega),
          byteAt_mkAddrTmp_copied junk m _ _ (Nat.min_le_right _ _)
            (by omega)]

/-- C7 witness: declared length 200 on a redirected IPv4 call is capped
    at 128 bytes. -/
theorem c7_witness :
    runTrunc.call.addrlen = min 200 128 ∧
    (calledBytes runTrunc).length = 128 ∧
    runTrunc.call.addr = some (calledBytes runTrunc) ∧
    runTrunc.ret = real0 runTrunc.call ∧
    readBytes (calledBytes runTrunc) 28 (min 200 128 - 28) =
      readBytes m200 28 (min 200 128 - 28) :=
  c7_truncating_copy real0 0 envStd [] 3 m200 200 runTrunc rfl rfl

/-- C8: every redirected IPv6 call records the attempt to clear the
    IPV6_V6ONLY option, returns exactly the real implementation result,
    and its whole observable outcome is independent of the result the
    setsockopt call produced. -/
theorem c8_v6only_best_effort (real : RealCall → Int × Int)
    (s1 s2 : Int) (env : Env) (junk : List Nat) (sockfd : Int)
    (m : List Nat) (addrlen : Nat) (run : BindRun)
    (hfam : getFamily m = AF_INET6)
    (hrun : bind real s1 env junk sockfd (some m) addrlen = some run)
    (hmv : run.moved = true) :
    run.v6attempt = true ∧ run.ret = real run.call ∧
    bind real s2 env junk sockfd (some m) addrlen = some run := by
  cases h : doMoveNewport env (getFamily m) (readPort16 m) with
  | none =>
    rw [bind_eq_passthrough real s1 env junk sockfd m addrlen h] at hrun
    have hr := Option.some_inj.mp hrun
    subst hr
    simp at hmv
  | some np =>
    rw [bind_eq_moveV6 real s1 env junk sockfd m addrlen np hfam h] at hrun
    have hr := Option.some_inj.mp hrun
    subst hr
    exact ⟨rfl, rfl,
      bind_eq_moveV6 real s2 env junk sockfd m addrlen np hfam h⟩

/-- C8 witness: the redirected IPv6 call with setsockopt succeeding
    (result 0) equals the one with setsockopt failing (result -1). -/
theorem c8_witness :
    runV6.v6attempt = true ∧ runV6.ret = real0 runV6.call ∧
    bind real0 (-1) envStd [] 5 (some m0v6) 28 = some runV6 :=
  c8_v6only_best_effort real0 0 (-1) envStd [] 5 m0v6 28 runV6
    (by decide) rfl rfl

/-- C9: the only state the shim keeps across calls is the resolved
    function pointer; running any trace of calls from the initial
    (unresolved) state produces, for every call, exactly the outcome of
    that call computed from the environment values in effect at that
    call, independent of every other call in the trace. -/
theorem c9_env_read_fresh (resolver : RealCall → Int × Int)
    (calls : List BindCallArgs) :
    runBindCalls resolver ⟨none⟩ calls =
      calls.map (fun c =>
        bind resolver c.sres c.env c.junk c.sockfd c.addr c.addrlen) := by
  have hres : ∀ l : List BindCallArgs,
      runBindCalls resolver ⟨some resolver⟩ l =
        l.map (fun c =>
          bind resolver c.sres c.env c.junk c.sockfd c.addr c.addrlen) := by
    intro l
    induction l with
    | nil => rfl
    | cons c rest ih => simp [runBindCalls, bindCall, ih]
  cases calls with
  | nil => rfl
  | cons c rest => simp [runBindCalls, bindCall, hres]

/-- C10: on every redirected call the port handed to the real
    implementation is the strtol result for REBIND_NEW_PORT reduced
    modulo 2^16 (the value is narrowed through the 16-bit network-order
    conversion with no range check). -/
theorem c10_port_narrowed_mod_2_16 (real : RealCall → Int × Int)
    (sres : Int) (env : Env) (junk : List Nat) (sockfd : Int)
    (m : List Nat) (addrlen : Nat) (pn : String) (run : BindRun)
    (hpn : env.REBIND_NEW_PORT = some pn)
    (hrun : bind real sres env junk sockfd (some m) addrlen = some run)
    (hmv : run.moved = true) :
    readPort16 (calledBytes run) = ((strtol10 pn).value % 65536).toNat := by
  cases h : doMoveNewport env (getFamily m) (readPort16 m) with
  | none =>
    rw [bind_eq_passthrough real sres env junk sockfd m addrlen h] at hrun
    have hr := Option.some_inj.mp hrun
    subst hr
    simp at hmv
  | some np =>
    have hnp := doMove_newport_value env _ _ np pn hpn h
    subst hnp
    rcases doMove_some_family _ _ _ _ h with hfam | hfam
    · rw [bind_eq_moveV4 real sres env junk sockfd m addrlen _ hfam h]
        at hrun
      have hr := Option.some_inj.mp hrun
      subst hr
      have hb := (rewriteV4_bytes (mkAddrTmp junk m (min addrlen 128))
        (toInt32 (strtol10 pn).value) (length_mkAddrTmp junk m _)).2.2.2.2
      have hport := readPort16_htons _ _ hb
      rw [calledBytes_mk, hport, toInt32_emod_65536]
    · rw [bind_eq_moveV6 real sres env junk sockfd m addrlen _ hfam h]
        at hrun
      have hr := Option.some_inj.mp hrun
      subst hr
      have hb := (rewriteV6_bytes (mkAddrTmp junk m (min addrlen 128))
        (toInt32 (strtol10 pn).value) (length_mkAddrTmp junk m _)).2.1
      have hport := readPort16_htons _ _ hb
      rw [calledBytes_mk, hport, toInt32_emod_65536]

/-- C10 witness: REBIND_NEW_PORT = "65536" redirects (65536 is non-zero
    as an int) and the delivered port is 65536 mod 2^16 = 0. -/
theorem c10_witness :
    readPort16 (calledBytes runBig) =
      ((strtol10 "65536").value % 65536).toNat :=
  c10_port_narrowed_mod_2_16 real0 0 envBig [] 3 m0v4 16 "65536" runBig
    rfl rfl rfl

end Rebind
